import Mathlib

/-!
Shallow embedding of the retry engine (`src/retry.js`) and of the
long-running-operation poller (`waitForOperation` in `src/cdn-client.js`)
of the yandex-cdn-invalidator repository, together with proofs of the
specification claims about them.

Modelling conventions:
* A JavaScript error-like value is a record of the three fields the
  classifier inspects; a missing field is `none`.
* Asynchronous operations are attempt-indexed functions returning
  `Except`: `op k` is the outcome of the k-th invocation (1-based).
* Time is logical: the only way time advances is a recorded sleep, so the
  poller's `elapsed` equals `pollInterval * n` after `n` sleeps.
* The `while` loops are driven by a structural fuel argument so that the
  definitions compute by kernel reduction.  The fuel is initialised so
  that it runs out exactly when the loop guard would fail (retry loop:
  fuel = maxAttempts.toNat - attempt; poller: fuel iterations cover the
  whole timeout window), and the guard conditions from the source are
  kept explicitly in the bodies.
-/

namespace CdnInvalidator

/-- An error-like JavaScript value as inspected by `isRetryableError` in
`src/retry.js`: `responseStatus` models `error.response?.status` (`none`
when `response` is absent or has no `status` field), `code` models
`error.code`, `message` models `error.message`. -/
structure JsError where
  responseStatus : Option Nat := none
  code : Option String := none
  message : Option String := none
deriving DecidableEq

/-- JavaScript truthiness of `error.response?.status`: the field is present
and is a non-zero number. -/
def statusTruthy : Option Nat → Bool
  | some s => s != 0
  | none => false

/-- JavaScript `String.prototype.includes`: case-sensitive substring test,
`strIncludes s pat = true` iff `pat` occurs contiguously in `s`. -/
def strIncludes (s pat : String) : Bool :=
  (List.range (s.length + 1)).any (fun i => pat.data.isPrefixOf (s.data.drop i))

/-- JavaScript `error.message?.includes(pat)` coerced to boolean: `false` when the
message is absent. -/
def msgIncludes : Option String → String → Bool
  | some m, pat => strIncludes m pat
  | none, _ => false

/-- The `retryableStatusCodes` list of `src/retry.js`. -/
def retryableStatusCodes : List Nat := [408, 429, 500, 502, 503, 504]

/-- Function `isRetryableError` from `src/retry.js`: status-code check first (guarded
by JS truthiness of `error.response?.status`), then the four network error
codes, then the three throttling message substrings, else `false`. -/
def isRetryableError (e : JsError) : Bool :=
  if statusTruthy e.responseStatus then
    retryableStatusCodes.contains (e.responseStatus.getD 0)
  else if e.code == some "ECONNRESET" || e.code == some "ETIMEDOUT"
      || e.code == some "ENOTFOUND" || e.code == some "ECONNREFUSED" then
    true
  else if msgIncludes e.message "Throttling" || msgIncludes e.message "TooManyRequests"
      || msgIncludes e.message "Rate limit" then
    true
  else
    false

/-- Function `isRetryableError` as callable on an arbitrary JavaScript value: `none`
models `null`/`undefined`, on which the source's first field access
`error.response` throws a TypeError before any optional chaining applies. -/
def isRetryableErrorJS : Option JsError → Except String Bool
  | none => .error "TypeError: cannot read properties of null"
  | some e => .ok (isRetryableError e)

/-- A failure propagated out of `retryWithBackoff`: either an error thrown
by the wrapped operation, or the trailing
`new Error('Unexpected retry loop exit')` after the loop. -/
inductive RetryError where
  | opError (e : JsError)
  | unexpectedExit
deriving DecidableEq

/-- The record passed to the `onRetry` observer in `src/retry.js`. -/
structure AttemptRecord where
  attempt : Nat
  maxAttempts : Int
  delay : ℚ
  error : JsError
deriving DecidableEq

/-- The options object of `retryWithBackoff` (the `onRetry` callback is
modelled by recording every record that would be passed to it). -/
structure RetryConfig where
  maxAttempts : Int := 12
  initialDelay : ℚ := 10000
  maxDelay : ℚ := 120000
  factor : ℚ := 1.5
deriving DecidableEq

/-- Observable outcome of one `retryWithBackoff` execution: final result,
number of invocations of the operation, the records handed to the
observer, and the slept delays in order. -/
structure RetryTrace (α : Type) where
  result : Except RetryError α
  calls : Nat
  observed : List AttemptRecord
  slept : List ℚ

/-- JavaScript `Math.min` on two rationals, written as an explicit
conditional so that it reduces in the kernel. -/
def jsMin (a b : ℚ) : ℚ := if a ≤ b then a else b

/-- The delay update `delay = Math.min(delay * factor, maxDelay)` of
`src/retry.js`. -/
def nextDelay (factor maxDelay d : ℚ) : ℚ := jsMin (d * factor) maxDelay

variable {α : Type}

/-- The `while (attempt < maxAttempts)` loop of `retryWithBackoff`.
`attempt` and `delay` are the loop variables of the source; `fuel` is a
structural bound kept equal to `(maxAttempts - attempt).toNat` by
`retryWithBackoff`, so the `fuel = 0` case is exactly the loop guard
failing and yields the trailing `'Unexpected retry loop exit'` error. -/
def retryGo (op : Nat → Except JsError α) (maxAttempts : Int) (factor maxDelay : ℚ) :
    Nat → Nat → ℚ → RetryTrace α
  | 0, _, _ => ⟨.error .unexpectedExit, 0, [], []⟩
  | fuel + 1, attempt, delay =>
    if (attempt : Int) < maxAttempts then
      match op (attempt + 1) with
      | .ok v => ⟨.ok v, 1, [], []⟩
      | .error e =>
        if isRetryableError e = false ∨ maxAttempts ≤ (attempt : Int) + 1 then
          ⟨.error (.opError e), 1, [], []⟩
        else
          let t := retryGo op maxAttempts factor maxDelay fuel (attempt + 1)
              (nextDelay factor maxDelay delay)
          ⟨t.result, t.calls + 1,
            ⟨attempt + 1, maxAttempts, delay, e⟩ :: t.observed, delay :: t.slept⟩
    else
      ⟨.error .unexpectedExit, 0, [], []⟩

/-- Function `retryWithBackoff` from `src/retry.js`: run the loop from
`attempt = 0` with `delay = initialDelay`. -/
def retryWithBackoff (op : Nat → Except JsError α) (cfg : RetryConfig) : RetryTrace α :=
  retryGo op cfg.maxAttempts cfg.factor cfg.maxDelay cfg.maxAttempts.toNat 0 cfg.initialDelay

/-- The sequence of values taken by the `delay` loop variable: term `n` is
the delay before the n-th scaling step. -/
def delaySeq (factor maxDelay d0 : ℚ) (n : Nat) : ℚ :=
  (nextDelay factor maxDelay)^[n] d0

/-- Specialisation of `delaySeq` to the default configuration
`initialDelay = 10000, factor = 1.5, maxDelay = 120000`. -/
def delaySeqDefault (n : Nat) : ℚ := delaySeq 1.5 120000 10000 n

/-- The `error` field of an Operation record, as read by
`waitForOperation` in `src/cdn-client.js`. -/
structure OperationError where
  code : Option String := none
  message : Option String := none
deriving DecidableEq

/-- An Operation record returned by a status check: the fields
`waitForOperation` reads (`done`, `error`, `metadata?.progress`). -/
structure Operation where
  done : Bool := false
  error : Option OperationError := none
  progress : Option Nat := none
deriving DecidableEq

/-- JavaScript `x || d` on an optional string field: the default is used
when the field is absent or is the (falsy) empty string. -/
def jsOr : Option String → String → String
  | some s, d => if s = "" then d else s
  | none, d => d

/-- The fixed `pollInterval` constant of `waitForOperation` (ms). -/
def pollInterval : Nat := 5000

/-- The timeout error message built by `waitForOperation`. -/
def timeoutMessage (timeoutSeconds : Nat) (operationId : String) : String :=
  "Operation timeout after " ++ toString timeoutSeconds ++ " seconds. "
    ++ "Operation ID: " ++ operationId ++ ". "
    ++ "Cache purge may still complete in the background."

/-- The remote-operation-failure error message built by
`waitForOperation` (after the `||` defaulting of code and message). -/
def operationFailedMessage (errorMessage errorCode operationId : String) : String :=
  "Operation failed: " ++ errorMessage ++ " (code: " ++ errorCode ++ "). "
    ++ "Operation ID: " ++ operationId

/-- How one `waitForOperation` call ends: successful return of the final
Operation, the locally raised timeout error, the locally raised
remote-operation-failure error, or a failure propagated unchanged from a
status check. -/
inductive WaitResult where
  | completed (op : Operation)
  | timedOut (msg : String)
  | operationFailed (msg : String)
  | checkFailed (e : String)
deriving DecidableEq

/-- Observable outcome of one `waitForOperation` call: how it ended, how
many status checks were performed, and the sleeps (ms) in order. -/
structure WaitTrace where
  result : WaitResult
  checks : Nat
  sleeps : List Nat
deriving DecidableEq

/-- The `while (true)` polling loop of `waitForOperation`.  `status n` is
the outcome of the n-th status check (0-based, `.error` = the check call
failed); time is logical, so `elapsed = pollInterval * n` and the source's
`elapsed >= timeoutMs` guard is kept explicitly.  `fuel` is a structural
bound kept large enough by `waitForOperation` that it reaches zero only
when the timeout guard already holds, so the `fuel = 0` case yields the
same timeout failure as the guard. -/
def waitGo (status : Nat → Except String Operation) (operationId : String)
    (timeoutSeconds : Nat) : Nat → Nat → WaitTrace
  | 0, _ => ⟨.timedOut (timeoutMessage timeoutSeconds operationId), 0, []⟩
  | fuel + 1, n =>
    if timeoutSeconds * 1000 ≤ pollInterval * n then
      ⟨.timedOut (timeoutMessage timeoutSeconds operationId), 0, []⟩
    else
      match status n with
      | .error e => ⟨.checkFailed e, 1, []⟩
      | .ok operation =>
        if operation.done = true then
          match operation.error with
          | some err =>
            ⟨.operationFailed (operationFailedMessage (jsOr err.message "No error message")
                (jsOr err.code "UNKNOWN") operationId), 1, []⟩
          | none => ⟨.completed operation, 1, []⟩
        else
          let t := waitGo status operationId timeoutSeconds fuel (n + 1)
          ⟨t.result, t.checks + 1, pollInterval :: t.sleeps⟩

/-- Function `waitForOperation` from `src/cdn-client.js`: poll from `n = 0`.  The
fuel `timeoutSeconds * 1000 / pollInterval + 1` covers every iteration
whose start lies before the deadline. -/
def waitForOperation (status : Nat → Except String Operation) (operationId : String)
    (timeoutSeconds : Nat := 900) : WaitTrace :=
  waitGo status operationId timeoutSeconds (timeoutSeconds * 1000 / pollInterval + 1) 0

/-! ### Helper lemmas about the retry loop -/

/-- On a permanently failing, always-retryable operation, the loop from
attempt `attempt < maxAttempts` ends with the error of invocation
`maxAttempts.toNat` after `maxAttempts.toNat - attempt` further calls. -/
lemma retryGo_allFail (op : Nat → Except JsError α) (errs : Nat → JsError)
    (M : Int) (f mD : ℚ)
    (hop : ∀ k, op k = .error (errs k)) (hr : ∀ k, isRetryableError (errs k) = true) :
    ∀ (fuel attempt : Nat) (delay : ℚ), fuel = (M - attempt).toNat → (attempt : Int) < M →
      (retryGo op M f mD fuel attempt delay).result = .error (.opError (errs M.toNat)) ∧
      (retryGo op M f mD fuel attempt delay).calls = M.toNat - attempt := by
  intro fuel
  induction fuel with
  | zero => intro attempt delay hfuel hlt; omega
  | succ n ih =>
    intro attempt delay hfuel hlt
    simp only [retryGo, if_pos hlt, hop (attempt + 1)]
    by_cases hlast : M ≤ (attempt : Int) + 1
    · rw [if_pos (Or.inr hlast)]
      have hMt : M.toNat = attempt + 1 := by omega
      rw [hMt]
      exact ⟨rfl, by dsimp only; omega⟩
    · have hcond : ¬(isRetryableError (errs (attempt + 1)) = false ∨ M ≤ (attempt : Int) + 1) := by
        simp [hr (attempt + 1), hlast]
      rw [if_neg hcond]
      have ih' := ih (attempt + 1) (nextDelay f mD delay) (by omega) (by omega)
      exact ⟨ih'.1, by have := ih'.2; dsimp only; omega⟩

/-- From any attempt strictly below `maxAttempts` (with matching fuel) the
loop never produces the `'Unexpected retry loop exit'` failure. -/
lemma retryGo_result_ne_unexpected (op : Nat → Except JsError α) (M : Int) (f mD : ℚ) :
    ∀ (fuel attempt : Nat) (delay : ℚ), fuel = (M - attempt).toNat → (attempt : Int) < M →
      (retryGo op M f mD fuel attempt delay).result ≠ .error .unexpectedExit := by
  intro fuel
  induction fuel with
  | zero => intro attempt delay hfuel hlt; omega
  | succ n ih =>
    intro attempt delay hfuel hlt
    simp only [retryGo, if_pos hlt]
    cases hcase : op (attempt + 1) with
    | ok v => simp [hcase]
    | error e =>
      simp only [hcase]
      by_cases hc : isRetryableError e = false ∨ M ≤ (attempt : Int) + 1
      · rw [if_pos hc]; simp
      · rw [if_neg hc]
        dsimp only
        exact ih (attempt + 1) (nextDelay f mD delay) (by omega) (by omega)

/-! ### Claim theorems about the retry executor -/

/-- C1: with `maxAttempts = n ≥ 1`, a permanently failing operation whose
errors are all retryable is invoked exactly n times and the propagated
failure is exactly the error thrown by the last (n-th) invocation; an
operation whose first invocation fails with a non-retryable error is
invoked exactly once and that error is propagated unchanged. -/
theorem c1_exhaustion_and_nonretryable_propagation :
    (∀ {α : Type} (op : Nat → Except JsError α) (errs : Nat → JsError) (cfg : RetryConfig),
      1 ≤ cfg.maxAttempts →
      (∀ k, op k = .error (errs k)) → (∀ k, isRetryableError (errs k) = true) →
      (retryWithBackoff op cfg).result = .error (.opError (errs cfg.maxAttempts.toNat)) ∧
      (retryWithBackoff op cfg).calls = cfg.maxAttempts.toNat) ∧
    (∀ {α : Type} (op : Nat → Except JsError α) (e : JsError) (cfg : RetryConfig),
      1 ≤ cfg.maxAttempts →
      op 1 = .error e → isRetryableError e = false →
      (retryWithBackoff op cfg).result = .error (.opError e) ∧
      (retryWithBackoff op cfg).calls = 1) := by
  constructor
  · intro α op errs cfg h1 hop hr
    have h := retryGo_allFail op errs cfg.maxAttempts cfg.factor cfg.maxDelay hop hr
      cfg.maxAttempts.toNat 0 cfg.initialDelay (by omega) (by omega)
    rw [retryWithBackoff]
    exact ⟨h.1, by omega⟩
  · intro α op e cfg h1 hop1 hnr
    rw [retryWithBackoff]
    obtain ⟨n, hn⟩ : ∃ n, cfg.maxAttempts.toNat = n + 1 :=
      ⟨cfg.maxAttempts.toNat - 1, by omega⟩
    rw [hn]
    simp only [retryGo]
    rw [if_pos (show (((0 : Nat) : Int)) < cfg.maxAttempts by omega)]
    simp only [Nat.zero_add, hop1]
    rw [if_pos (Or.inl hnr)]
    exact ⟨rfl, rfl⟩

/-- A permanently failing operation whose error is always retryable
(HTTP 500). -/
def opFailWitness : Nat → Except JsError Nat := fun _ => .error { responseStatus := some 500 }

/-- A permanently failing operation whose error is never retryable
(HTTP 400). -/
def opNonRetryWitness : Nat → Except JsError Nat := fun _ => .error { responseStatus := some 400 }

/-- A small concrete configuration. -/
def cfgWitness : RetryConfig := { maxAttempts := 3, initialDelay := 7, maxDelay := 20, factor := 2 }

/-- Witness for C1 at `maxAttempts = 3`: three calls and the last error on
a permanently failing retryable operation; one call on a non-retryable
error. -/
theorem c1_witness :
    ((retryWithBackoff opFailWitness cfgWitness).result
        = .error (.opError { responseStatus := some 500 }) ∧
      (retryWithBackoff opFailWitness cfgWitness).calls = 3) ∧
    ((retryWithBackoff opNonRetryWitness cfgWitness).result
        = .error (.opError { responseStatus := some 400 }) ∧
      (retryWithBackoff opNonRetryWitness cfgWitness).calls = 1) :=
  ⟨c1_exhaustion_and_nonretryable_propagation.1 opFailWitness
      (fun _ => { responseStatus := some 500 }) cfgWitness (by decide)
      (fun _ => rfl)
      (fun _ => show isRetryableError { responseStatus := some 500 } = true by decide),
    c1_exhaustion_and_nonretryable_propagation.2 opNonRetryWitness
      { responseStatus := some 400 } cfgWitness (by decide) rfl (by decide)⟩

/-- C10: when `maxAttempts ≥ 1` the trailing
`'Unexpected retry loop exit'` failure is unreachable, while for
`maxAttempts ≤ 0` the loop body never runs, the operation is invoked zero
times, and exactly that failure is produced. -/
theorem c10_unexpected_exit_reachability :
    (∀ {α : Type} (op : Nat → Except JsError α) (cfg : RetryConfig),
      1 ≤ cfg.maxAttempts →
      (retryWithBackoff op cfg).result ≠ .error .unexpectedExit) ∧
    (∀ {α : Type} (op : Nat → Except JsError α) (cfg : RetryConfig),
      cfg.maxAttempts ≤ 0 →
      retryWithBackoff op cfg = ⟨.error .unexpectedExit, 0, [], []⟩) := by
  constructor
  · intro α op cfg h1
    exact retryGo_result_ne_unexpected op cfg.maxAttempts cfg.factor cfg.maxDelay
      cfg.maxAttempts.toNat 0 cfg.initialDelay (by omega) (by omega)
  · intro α op cfg h0
    rw [retryWithBackoff]
    have hz : cfg.maxAttempts.toNat = 0 := by omega
    rw [hz]
    rfl

/-- The slept delays of any run are an initial segment of the delay
sequence generated from `initialDelay` by the scheduler step. -/
lemma retryGo_slept (op : Nat → Except JsError α) (M : Int) (f mD : ℚ) :
    ∀ (fuel attempt : Nat) (delay : ℚ), ∃ n,
      (retryGo op M f mD fuel attempt delay).slept
        = (List.range n).map (delaySeq f mD delay) := by
  intro fuel
  induction fuel with
  | zero => intro attempt delay; exact ⟨0, rfl⟩
  | succ n ih =>
    intro attempt delay
    simp only [retryGo]
    by_cases hlt : (attempt : Int) < M
    · rw [if_pos hlt]
      cases hcase : op (attempt + 1) with
      | ok v => exact ⟨0, rfl⟩
      | error e =>
        dsimp only
        by_cases hc : isRetryableError e = false ∨ M ≤ (attempt : Int) + 1
        · rw [if_pos hc]; exact ⟨0, rfl⟩
        · rw [if_neg hc]
          obtain ⟨m, hm⟩ := ih (attempt + 1) (nextDelay f mD delay)
          refine ⟨m + 1, ?_⟩
          dsimp only
          have hfun : delaySeq f mD (nextDelay f mD delay) = delaySeq f mD delay ∘ Nat.succ := by
            funext i
            simp [delaySeq, Function.iterate_succ_apply]
          rw [hm, hfun, List.range_succ_eq_map, List.map_cons, List.map_map]
          rfl
    · rw [if_neg hlt]; exact ⟨0, rfl⟩

/-- Peeling one term off the delay sequence over a range. -/
lemma delaySeq_range_succ (f mD d0 : ℚ) (m : Nat) :
    (List.range (m + 1)).map (delaySeq f mD d0)
      = d0 :: (List.range m).map (delaySeq f mD (nextDelay f mD d0)) := by
  rw [List.range_succ_eq_map, List.map_cons, List.map_map]
  refine congrArg₂ _ rfl (List.map_congr_left ?_)
  intro i _
  simp [delaySeq, Function.iterate_succ_apply]

/-- Peeling one record off the expected observer-record list. -/
lemma observedMap_succ (M : Int) (f mD d0 : ℚ) (errs : Nat → JsError) (a m : Nat) :
    (List.range (m + 1)).map
        (fun i => AttemptRecord.mk (a + i + 1) M (delaySeq f mD d0 i) (errs (a + i + 1)))
      = AttemptRecord.mk (a + 1) M d0 (errs (a + 1)) ::
        (List.range m).map (fun i =>
          AttemptRecord.mk (a + 1 + i + 1) M (delaySeq f mD (nextDelay f mD d0) i)
            (errs (a + 1 + i + 1))) := by
  rw [List.range_succ_eq_map, List.map_cons, List.map_map]
  refine congrArg₂ _ rfl (List.map_congr_left ?_)
  intro i _
  simp only [Function.comp_apply]
  have h1 : a + (i + 1) + 1 = a + 1 + i + 1 := by omega
  rw [h1, show delaySeq f mD d0 (i + 1) = delaySeq f mD (nextDelay f mD d0) i from by
    simp [delaySeq, Function.iterate_succ_apply]]

/-- Full trace of a run that fails retryably on attempts `attempt+1 .. k-1`
and succeeds on attempt `k ≤ maxAttempts`. -/
lemma retryGo_succeedAt (op : Nat → Except JsError α) (errs : Nat → JsError) (v : α)
    (M : Int) (f mD : ℚ) (k : Nat)
    (hkM : (k : Int) ≤ M) (hok : op k = .ok v)
    (hfail : ∀ i, 1 ≤ i → i < k → op i = .error (errs i) ∧ isRetryableError (errs i) = true) :
    ∀ (fuel attempt : Nat) (delay : ℚ), fuel = (M - attempt).toNat → attempt < k →
      retryGo op M f mD fuel attempt delay =
        ⟨.ok v, k - attempt,
          (List.range (k - attempt - 1)).map (fun i =>
            AttemptRecord.mk (attempt + i + 1) M (delaySeq f mD delay i)
              (errs (attempt + i + 1))),
          (List.range (k - attempt - 1)).map (delaySeq f mD delay)⟩ := by
  intro fuel
  induction fuel with
  | zero => intro attempt delay hfuel hak; omega
  | succ n ih =>
    intro attempt delay hfuel hak
    have hlt : (attempt : Int) < M := by omega
    simp only [retryGo, if_pos hlt]
    by_cases hterm : attempt + 1 = k
    · rw [hterm, hok]
      have h1 : k - attempt = 1 := by omega
      have h2 : k - attempt - 1 = 0 := by omega
      rw [h2, h1]
      rfl
    · have hf := hfail (attempt + 1) (by omega) (by omega)
      simp only [hf.1]
      have hcond : ¬(isRetryableError (errs (attempt + 1)) = false ∨ M ≤ (attempt : Int) + 1) := by
        rintro (h | h)
        · rw [hf.2] at h; exact absurd h (by simp)
        · omega
      rw [if_neg hcond, ih (attempt + 1) (nextDelay f mD delay) (by omega) (by omega)]
      dsimp only
      have h2 : k - attempt - 1 = (k - (attempt + 1) - 1) + 1 := by omega
      have h3 : k - attempt = (k - (attempt + 1)) + 1 := by omega
      rw [h2, h3, observedMap_succ, delaySeq_range_succ]

/-- C3: the scheduler starts at `initialDelay` and advances by
`min(d * factor, maxDelay)` (conjuncts 1–2); every slept sequence of
`retryWithBackoff` is an initial segment of that delay sequence
(conjunct 3); at the defaults `10000 / 1.5 / 120000` the sequence runs
`10000, 15000, 22500, 33750, ...`, unclamped up to index 6, and is
clamped to `120000` from index 7 on, the first index whose unclamped
value `10000 * 1.5^7` exceeds `120000` (conjuncts 4–7). -/
theorem c3_delay_sequence :
    (∀ f mD d0 : ℚ, delaySeq f mD d0 0 = d0) ∧
    (∀ (f mD d0 : ℚ) (n : Nat),
      delaySeq f mD d0 (n + 1) = jsMin (delaySeq f mD d0 n * f) mD) ∧
    (∀ {α : Type} (op : Nat → Except JsError α) (cfg : RetryConfig), ∃ n,
      (retryWithBackoff op cfg).slept
        = (List.range n).map (delaySeq cfg.factor cfg.maxDelay cfg.initialDelay)) ∧
    (delaySeqDefault 0 = 10000 ∧ delaySeqDefault 1 = 15000 ∧
      delaySeqDefault 2 = 22500 ∧ delaySeqDefault 3 = 33750) ∧
    (∀ n, n ≤ 6 → delaySeqDefault n = 10000 * (3 / 2 : ℚ) ^ n) ∧
    ((120000 : ℚ) < 10000 * (3 / 2 : ℚ) ^ 7) ∧
    (∀ n, 7 ≤ n → delaySeqDefault n = 120000) := by
  refine ⟨fun f mD d0 => rfl, fun f mD d0 n => ?_, ?_, ?_, ?_, by norm_num, ?_⟩
  · simp [delaySeq, Function.iterate_succ_apply', nextDelay]
  · intro α op cfg
    exact retryGo_slept op cfg.maxAttempts cfg.factor cfg.maxDelay
      cfg.maxAttempts.toNat 0 cfg.initialDelay
  · refine ⟨rfl, ?_, ?_, ?_⟩ <;>
      norm_num [delaySeqDefault, delaySeq, nextDelay, jsMin,
        Function.iterate_succ_apply', Function.iterate_zero_apply]
  · intro n hn
    interval_cases n <;>
      norm_num [delaySeqDefault, delaySeq, nextDelay, jsMin,
        Function.iterate_succ_apply', Function.iterate_zero_apply]
  · intro n hn
    induction n, hn using Nat.le_induction with
    | base =>
      norm_num [delaySeqDefault, delaySeq, nextDelay, jsMin,
        Function.iterate_succ_apply', Function.iterate_zero_apply]
    | succ n hn ih =>
      have hstep : delaySeqDefault (n + 1) = nextDelay 1.5 120000 (delaySeqDefault n) := by
        simp only [delaySeqDefault, delaySeq, Function.iterate_succ_apply']
      rw [hstep, ih]
      norm_num [nextDelay, jsMin]

/-- Witness for C3: the unclamped value at index 5 and the clamped value
at index 9. -/
theorem c3_witness :
    delaySeqDefault 5 = 10000 * (3 / 2 : ℚ) ^ 5 ∧ delaySeqDefault 9 = 120000 :=
  ⟨c3_delay_sequence.2.2.2.2.1 5 (by decide),
    c3_delay_sequence.2.2.2.2.2.2 9 (by decide)⟩

/-- C4: if attempts `1..k-1` fail with retryable errors and attempt
`k ≤ maxAttempts` succeeds, `retryWithBackoff` returns the success value
of attempt k unmodified, invokes the operation exactly k times, and the
observer receives exactly k-1 records, with strictly increasing attempt
fields `1..k-1` and with each record carrying the delay value current
before scaling (`delaySeq ... i` for the record of attempt `i+1`); the
terminal success produces no record. -/
theorem c4_success_after_retryable_failures :
    ∀ {α : Type} (op : Nat → Except JsError α) (errs : Nat → JsError) (v : α)
      (cfg : RetryConfig) (k : Nat),
      1 ≤ k → (k : Int) ≤ cfg.maxAttempts →
      op k = .ok v →
      (∀ i, 1 ≤ i → i < k → op i = .error (errs i) ∧ isRetryableError (errs i) = true) →
      retryWithBackoff op cfg =
        ⟨.ok v, k,
          (List.range (k - 1)).map (fun i =>
            AttemptRecord.mk (i + 1) cfg.maxAttempts
              (delaySeq cfg.factor cfg.maxDelay cfg.initialDelay i) (errs (i + 1))),
          (List.range (k - 1)).map (delaySeq cfg.factor cfg.maxDelay cfg.initialDelay)⟩ := by
  intro α op errs v cfg k hk1 hkM hok hfail
  rw [retryWithBackoff]
  have h := retryGo_succeedAt op errs v cfg.maxAttempts cfg.factor cfg.maxDelay k hkM hok hfail
    cfg.maxAttempts.toNat 0 cfg.initialDelay (by omega) (by omega)
  simpa only [Nat.zero_add, Nat.sub_zero] using h

/-- An operation failing retryably (HTTP 429) on attempt 1 and succeeding
on attempt 2. -/
def opSucceedWitness : Nat → Except JsError Nat :=
  fun k => if k = 2 then .ok 42 else .error { responseStatus := some 429 }

/-- Witness for C4 at `k = 2`, `maxAttempts = 3`, `initialDelay = 7`:
success value 42, two calls, one observer record for attempt 1 carrying
delay 7, one sleep of 7. -/
theorem c4_witness :
    retryWithBackoff opSucceedWitness cfgWitness =
      ⟨.ok 42, 2, [AttemptRecord.mk 1 3 7 { responseStatus := some 429 }], [7]⟩ :=
  c4_success_after_retryable_failures opSucceedWitness
    (fun _ => { responseStatus := some 429 }) 42 cfgWitness 2 (by decide) (by decide) rfl
    (by
      intro i h1 h2
      interval_cases i
      exact ⟨rfl, show isRetryableError { responseStatus := some 429 } = true by decide⟩)

/-- Loop invariants under a valid configuration: the slept delays are
non-decreasing, bounded by `maxDelay` and bounded below by the current
delay, and the loop makes one call per iteration, never exceeding the
remaining attempt budget. -/
lemma retryGo_invariants (op : Nat → Except JsError α) (M : Int) (f mD : ℚ) (hf : 1 ≤ f) :
    ∀ (fuel attempt : Nat) (delay : ℚ), 0 ≤ delay → delay ≤ mD →
      fuel = (M - attempt).toNat → (attempt : Int) < M →
      List.Chain' (· ≤ ·) ((retryGo op M f mD fuel attempt delay).slept) ∧
      (∀ x ∈ (retryGo op M f mD fuel attempt delay).slept, x ≤ mD) ∧
      (∀ x ∈ (retryGo op M f mD fuel attempt delay).slept, delay ≤ x) ∧
      (retryGo op M f mD fuel attempt delay).calls
        = (retryGo op M f mD fuel attempt delay).slept.length + 1 ∧
      (retryGo op M f mD fuel attempt delay).calls ≤ (M - attempt).toNat := by
  intro fuel
  induction fuel with
  | zero => intro attempt delay h0 hmD hfuel hlt; omega
  | succ n ih =>
    intro attempt delay h0 hmD hfuel hlt
    simp only [retryGo, if_pos hlt]
    cases hcase : op (attempt + 1) with
    | ok v => exact ⟨by simp, by simp, by simp, rfl, by dsimp only; omega⟩
    | error e =>
      dsimp only
      by_cases hc : isRetryableError e = false ∨ M ≤ (attempt : Int) + 1
      · rw [if_pos hc]
        exact ⟨by simp, by simp, by simp, rfl, by dsimp only; omega⟩
      · rw [if_neg hc]
        have hnext : ¬(M ≤ (attempt : Int) + 1) := fun h => hc (Or.inr h)
        have h1 : 0 ≤ delay * f := mul_nonneg h0 (le_trans zero_le_one hf)
        have h2 : (0 : ℚ) ≤ mD := le_trans h0 hmD
        have hd0 : 0 ≤ nextDelay f mD delay := by
          unfold nextDelay jsMin
          split <;> assumption
        have hdm : nextDelay f mD delay ≤ mD := by
          unfold nextDelay jsMin
          split
          · assumption
          · exact le_refl mD
        have hdd : delay ≤ nextDelay f mD delay := by
          have hdf : delay ≤ delay * f := le_mul_of_one_le_right h0 hf
          unfold nextDelay jsMin
          split
          · exact hdf
          · exact hmD
        obtain ⟨ic, im, il, icalls, ibound⟩ :=
          ih (attempt + 1) (nextDelay f mD delay) hd0 hdm (by omega) (by omega)
        dsimp only
        refine ⟨?_, ?_, ?_, ?_, by omega⟩
        · rw [List.chain'_cons']
          exact ⟨fun y hy => le_trans hdd (il y (List.mem_of_mem_head? hy)), ic⟩
        · intro x hx
          rcases List.mem_cons.mp hx with h | h
          · rw [h]; exact hmD
          · exact im x h
        · intro x hx
          rcases List.mem_cons.mp hx with h | h
          · rw [h]
          · exact le_trans hdd (il x h)
        · simp [icalls]

/-- C5: under a valid configuration (`maxAttempts ≥ 1`,
`initialDelay ≥ 0`, `maxDelay ≥ initialDelay`, `factor ≥ 1`) the slept
delay sequence is monotonically non-decreasing with every delay
`≤ maxDelay`, the attempt counter advances by exactly one call per loop
iteration (calls = sleeps + 1), and it never exceeds `maxAttempts`. -/
theorem c5_retry_loop_invariants :
    ∀ {α : Type} (op : Nat → Except JsError α) (cfg : RetryConfig),
      1 ≤ cfg.maxAttempts → 0 ≤ cfg.initialDelay → cfg.initialDelay ≤ cfg.maxDelay →
      1 ≤ cfg.factor →
      List.Chain' (· ≤ ·) ((retryWithBackoff op cfg).slept) ∧
      (∀ x ∈ (retryWithBackoff op cfg).slept, x ≤ cfg.maxDelay) ∧
      (retryWithBackoff op cfg).calls = (retryWithBackoff op cfg).slept.length + 1 ∧
      (retryWithBackoff op cfg).calls ≤ cfg.maxAttempts.toNat := by
  intro α op cfg h1 h2 h3 h4
  have h := retryGo_invariants op cfg.maxAttempts cfg.factor cfg.maxDelay h4
    cfg.maxAttempts.toNat 0 cfg.initialDelay h2 h3 (by omega) (by omega)
  rw [retryWithBackoff]
  exact ⟨h.1, h.2.1, h.2.2.2.1, by have := h.2.2.2.2; omega⟩

/-- Witness for C5 on a permanently failing retryable operation with
`maxAttempts = 3, initialDelay = 7, maxDelay = 20, factor = 2`. -/
theorem c5_witness :
    List.Chain' (· ≤ ·) ((retryWithBackoff opFailWitness cfgWitness).slept) ∧
    (∀ x ∈ (retryWithBackoff opFailWitness cfgWitness).slept, x ≤ cfgWitness.maxDelay) ∧
    (retryWithBackoff opFailWitness cfgWitness).calls
      = (retryWithBackoff opFailWitness cfgWitness).slept.length + 1 ∧
    (retryWithBackoff opFailWitness cfgWitness).calls ≤ 3 :=
  c5_retry_loop_invariants opFailWitness cfgWitness (by decide) (by decide) (by decide)
    (by decide)

/-! ### Claim theorems about the error classifier -/

/-- The classifier exactly as claim C2 words it, for comparison with the
source's `isRetryableError`: a present status code decides by membership
in the retryable set and short-circuits everything; otherwise a present
network error code decides (true iff it is one of the four codes);
otherwise a present message decides by the three substrings; otherwise
false. -/
def retryableSpecClaimed (e : JsError) : Bool :=
  match e.responseStatus with
  | some s => retryableStatusCodes.contains s
  | none =>
    match e.code with
    | some c =>
      c == "ECONNRESET" || c == "ETIMEDOUT" || c == "ENOTFOUND" || c == "ECONNREFUSED"
    | none =>
      match e.message with
      | some m =>
        strIncludes m "Throttling" || strIncludes m "TooManyRequests"
          || strIncludes m "Rate limit"
      | none => false

/-- The non-status part of the amended classifier: true if the code is one
of the four network codes, or (independently) if the message contains one
of the three substrings. -/
def retryableSpecFallback (code message : Option String) : Bool :=
  (match code with
    | some c =>
      c == "ECONNRESET" || c == "ETIMEDOUT" || c == "ENOTFOUND" || c == "ECONNREFUSED"
    | none => false)
  || (match message with
      | some m =>
        strIncludes m "Throttling" || strIncludes m "TooManyRequests"
          || strIncludes m "Rate limit"
      | none => false)

/-- The classifier as amended: a present non-zero status code decides by
membership in the retryable set and short-circuits everything (a status
of 0 is treated as absent); otherwise a matching network code or a
matching message substring yields true — a present but non-matching code
does not force false. -/
def retryableSpecAmended (e : JsError) : Bool :=
  match e.responseStatus with
  | some s =>
    if s = 0 then retryableSpecFallback e.code e.message
    else retryableStatusCodes.contains s
  | none => retryableSpecFallback e.code e.message

/-- Counterexample for C2: a non-matching network code together with a
throttling message is retryable in the source (the code check falls
through to the message check) but not under the claim's "true iff the
code is one of the four" reading; likewise a status code 0 is falsy in
the source's presence test, so it does not short-circuit. -/
theorem c2_counterexample :
    (isRetryableError ⟨none, some "EPIPE", some "Throttling detected"⟩ = true ∧
      retryableSpecClaimed ⟨none, some "EPIPE", some "Throttling detected"⟩ = false) ∧
    (isRetryableError ⟨some 0, some "ECONNRESET", none⟩ = true ∧
      retryableSpecClaimed ⟨some 0, some "ECONNRESET", none⟩ = false) := by decide

/-- C2 (amended): `isRetryableError` implements — if a non-zero status
code is present, true iff it is in {408, 429, 500, 502, 503, 504},
short-circuiting the remaining checks (status 0 is treated as absent);
otherwise true iff the network code is one of ECONNRESET / ETIMEDOUT /
ENOTFOUND / ECONNREFUSED, or the message contains the case-sensitive
substring "Throttling", "TooManyRequests" or "Rate limit"; else false. -/
theorem c2_classifier_priority_amended :
    ∀ e : JsError, isRetryableError e = retryableSpecAmended e := by
  have hbeq : ∀ a b : String, (a == b) = decide (a = b) := by
    intro a b
    by_cases h : a = b <;> simp [h]
  intro e
  obtain ⟨s, c, m⟩ := e
  rcases s with _ | s
  · rcases c with _ | c <;> rcases m with _ | m <;>
      simp [isRetryableError, retryableSpecAmended, retryableSpecFallback, statusTruthy,
        msgIncludes, hbeq]
  · by_cases hs : s = 0
    · subst hs
      rcases c with _ | c <;> rcases m with _ | m <;>
        simp [isRetryableError, retryableSpecAmended, retryableSpecFallback, statusTruthy,
          msgIncludes, hbeq]
    · simp [isRetryableError, retryableSpecAmended, retryableSpecFallback, statusTruthy, hs]

/-- C9 counterexample: calling `isRetryableError` on `null`/`undefined`
does not return a boolean — the first field access throws. -/
theorem c9_counterexample : ¬ ∃ b, isRetryableErrorJS none = .ok b := by
  rintro ⟨b, hb⟩
  simp [isRetryableErrorJS] at hb

/-- C9 (amended): `isRetryableError` is pure and total over every
non-null, non-undefined input, including values missing any of the
status/code/message fields: it always returns a boolean. -/
theorem c9_total_on_nonnull :
    ∀ v : Option JsError, v ≠ none → ∃ b, isRetryableErrorJS v = .ok b := by
  intro v hv
  rcases v with _ | e
  · exact absurd rfl hv
  · exact ⟨isRetryableError e, rfl⟩

/-- Witness for C9 on an object with no status, code or message field. -/
theorem c9_witness :
    ∃ b, isRetryableErrorJS (some { responseStatus := none }) = .ok b :=
  c9_total_on_nonnull (some { responseStatus := none }) (by simp)

/-! ### Claim theorems about the operation poller -/

/-- A pending operation record (`done: false`). -/
def opPending : Operation := { done := false }

/-- A successfully completed operation record (`done: true`, no error). -/
def opDoneOk : Operation := { done := true }

/-- Status checks reporting `done:false` twice, then `done:true` with no
error. -/
def statusTwicePending : Nat → Except String Operation :=
  fun n => if n < 2 then .ok opPending else .ok opDoneOk

/-- When every status check succeeds, no run of the polling loop ends in
a propagated check failure — only the two locally raised conditions (or
success) remain. -/
lemma waitGo_no_checkFailed (status : Nat → Except String Operation) (operationId : String)
    (timeoutSeconds : Nat) (hok : ∀ n, ∃ op, status n = .ok op) :
    ∀ (fuel n : Nat) (s : String),
      (waitGo status operationId timeoutSeconds fuel n).result ≠ .checkFailed s := by
  intro fuel
  induction fuel with
  | zero => intro n s; simp [waitGo]
  | succ f ih =>
    intro n s
    simp only [waitGo]
    by_cases hg : timeoutSeconds * 1000 ≤ pollInterval * n
    · rw [if_pos hg]; simp
    · rw [if_neg hg]
      obtain ⟨op0, hop0⟩ := hok n
      rw [hop0]
      dsimp only
      by_cases hd : op0.done = true
      · rw [if_pos hd]
        cases herr : op0.error with
        | some err => simp
        | none => simp
      · rw [if_neg hd]
        dsimp only
        exact ih (n + 1) s

/-- C6: assuming status checks themselves succeed, the poller has exactly
two locally raised failure modes.  (1) With `timeoutSeconds = 1` and a
status that always reports `done:false`, it performs exactly one status
check (in particular at least one) and then fails with the timeout
condition, whose message names the operation id.  (2) If a status check
reports `done:true` with an error `{code: c, message: m}` present, it
fails with the remote-operation-failure condition, which embeds both `m`
and `c` and is distinct from the timeout condition.  (3) No run with
succeeding status checks ends in any other locally raised failure: the
propagated-check-failure outcome is impossible then. -/
theorem c6_poller_failure_modes :
    (∀ (operationId : String) (status : Nat → Except String Operation),
      (∀ n, ∃ op, status n = .ok op ∧ op.done = false) →
      (waitForOperation status operationId 1).result
          = .timedOut (timeoutMessage 1 operationId) ∧
      (waitForOperation status operationId 1).checks = 1 ∧
      ∃ pre post, timeoutMessage 1 operationId = pre ++ (operationId ++ post)) ∧
    (∀ (operationId : String) (status : Nat → Except String Operation)
      (timeoutSeconds : Nat) (op0 : Operation) (c m : String),
      1 ≤ timeoutSeconds → status 0 = .ok op0 → op0.done = true →
      op0.error = some ⟨some c, some m⟩ → c ≠ "" → m ≠ "" →
      (waitForOperation status operationId timeoutSeconds).result
          = .operationFailed (operationFailedMessage m c operationId) ∧
      (∀ s, (waitForOperation status operationId timeoutSeconds).result ≠ .timedOut s) ∧
      ∃ p q r, operationFailedMessage m c operationId
        = p ++ (m ++ (q ++ (c ++ r)))) ∧
    (∀ (operationId : String) (status : Nat → Except String Operation)
      (timeoutSeconds : Nat),
      (∀ n, ∃ op, status n = .ok op) →
      ∀ s, (waitForOperation status operationId timeoutSeconds).result ≠ .checkFailed s) := by
  refine ⟨?_, ?_, ?_⟩
  · intro operationId status h
    obtain ⟨op0, hop0, hdone0⟩ := h 0
    have hfuel : 1 * 1000 / pollInterval + 1 = 0 + 1 := by norm_num [pollInterval]
    rw [waitForOperation, hfuel]
    simp only [waitGo]
    rw [if_neg (by norm_num [pollInterval]), hop0]
    dsimp only
    rw [if_neg (by simp [hdone0])]
    refine ⟨rfl, rfl,
      ⟨"Operation timeout after 1 seconds. Operation ID: ",
        ". Cache purge may still complete in the background.", ?_⟩⟩
    simp only [timeoutMessage, String.append_assoc]
    rfl
  · intro operationId status timeoutSeconds op0 c m hT h0 hdone herr hc hm
    rw [waitForOperation]
    simp only [waitGo]
    rw [if_neg (by simp only [pollInterval]; omega), h0]
    dsimp only
    rw [if_pos hdone, herr]
    dsimp only
    rw [show jsOr (OperationError.mk (some c) (some m)).message "No error message" = m
        from by simp [jsOr, hm],
      show jsOr (OperationError.mk (some c) (some m)).code "UNKNOWN" = c
        from by simp [jsOr, hc]]
    refine ⟨rfl, by simp, ⟨"Operation failed: ", " (code: ", "). Operation ID: " ++ operationId, ?_⟩⟩
    simp only [operationFailedMessage, String.append_assoc]
    rw [← String.append_assoc "). " "Operation ID: " operationId]
    rfl
  · intro operationId status timeoutSeconds hok s
    rw [waitForOperation]
    exact waitGo_no_checkFailed status operationId timeoutSeconds hok
      (timeoutSeconds * 1000 / pollInterval + 1) 0 s

/-- Status checks always reporting a pending operation. -/
def statusPendingWitness : Nat → Except String Operation := fun _ => .ok opPending

/-- A finished operation carrying the remote error `{code: X, message: Y}`. -/
def opDoneErrWitness : Operation := { done := true, error := some ⟨some "X", some "Y"⟩ }

/-- Status checks always reporting `opDoneErrWitness`. -/
def statusDoneErrWitness : Nat → Except String Operation := fun _ => .ok opDoneErrWitness

/-- Witness for C6: the timeout scenario at `timeoutSeconds = 1`, and the
remote-failure scenario with code X / message Y. -/
theorem c6_witness :
    ((waitForOperation statusPendingWitness "op-w" 1).result
        = .timedOut (timeoutMessage 1 "op-w") ∧
      (waitForOperation statusPendingWitness "op-w" 1).checks = 1) ∧
    (waitForOperation statusDoneErrWitness "op-w" 900).result
        = .operationFailed (operationFailedMessage "Y" "X" "op-w") ∧
    (waitForOperation statusPendingWitness "op-w" 1).result ≠ .checkFailed "boom" :=
  ⟨⟨(c6_poller_failure_modes.1 "op-w" statusPendingWitness
        (fun _ => ⟨opPending, rfl, rfl⟩)).1,
    (c6_poller_failure_modes.1 "op-w" statusPendingWitness
        (fun _ => ⟨opPending, rfl, rfl⟩)).2.1⟩,
    (c6_poller_failure_modes.2.1 "op-w" statusDoneErrWitness 900 opDoneErrWitness "X" "Y"
        (by decide) rfl rfl rfl (by decide) (by decide)).1,
    c6_poller_failure_modes.2.2 "op-w" statusPendingWitness 1
      (fun _ => ⟨opPending, rfl⟩) "boom"⟩

/-- C7: on `done:false, done:false, done:true` (no error) the poller
returns the final Operation record, performs exactly 3 status checks, and
sleeps the fixed `pollInterval = 5000` ms between each pair of successive
checks. -/
theorem c7_poller_success_trace :
    waitForOperation statusTwicePending "op-1" 900
      = ⟨.completed opDoneOk, 3, [5000, 5000]⟩ ∧ pollInterval = 5000 :=
  ⟨by decide, rfl⟩

/-- Propagation of a failing status check: after pending checks at
indices `n .. n+k-1` inside the timeout window, a failing check at index
`n+k` ends the loop at once with that error after exactly `k + 1`
checks. -/
lemma waitGo_check_failure (status : Nat → Except String Operation) (operationId : String)
    (timeoutSeconds : Nat) (e : String) :
    ∀ (k fuel n : Nat),
      (∀ i, i < k → ∃ op, status (n + i) = .ok op ∧ op.done = false) →
      status (n + k) = .error e →
      5000 * (n + k) < timeoutSeconds * 1000 →
      timeoutSeconds * 1000 ≤ 5000 * (n + fuel) →
      (waitGo status operationId timeoutSeconds fuel n).result = .checkFailed e ∧
      (waitGo status operationId timeoutSeconds fuel n).checks = k + 1 := by
  intro k
  induction k with
  | zero =>
    intro fuel n hpre hk hdeadline hinv
    cases fuel with
    | zero => omega
    | succ f =>
      have hk0 : status n = .error e := by simpa using hk
      simp only [waitGo]
      rw [if_neg (by simp only [pollInterval]; omega), hk0]
      exact ⟨rfl, rfl⟩
  | succ k ih =>
    intro fuel n hpre hk hdeadline hinv
    cases fuel with
    | zero => omega
    | succ f =>
      simp only [waitGo]
      rw [if_neg (by simp only [pollInterval]; omega)]
      obtain ⟨op0, hop0, hdone0⟩ := hpre 0 (by omega)
      have hop0n : status n = .ok op0 := by simpa using hop0
      rw [hop0n]
      dsimp only
      rw [if_neg (by simp [hdone0])]
      have ihh := ih f (n + 1)
        (fun i hi => by
          obtain ⟨op', h1, h2⟩ := hpre (i + 1) (by omega)
          exact ⟨op', by rw [show n + 1 + i = n + (i + 1) from by omega]; exact h1, h2⟩)
        (by rw [show n + 1 + k = n + (k + 1) from by omega]; exact hk)
        (by omega) (by omega)
      dsimp only
      exact ⟨ihh.1, by rw [ihh.2]⟩

/-- C8: if the status checks report pending operations up to check `k-1`
and the `k`-th status check (0-based) fails, the failure propagates
immediately out of `waitForOperation`: the result is exactly that error,
precisely `k + 1` status-check calls are made — the failed one is never
re-invoked and no retry policy applies to it. -/
theorem c8_status_check_failure_propagates :
    ∀ (status : Nat → Except String Operation) (operationId : String)
      (timeoutSeconds k : Nat) (e : String),
      (∀ i, i < k → ∃ op, status i = .ok op ∧ op.done = false) →
      status k = .error e →
      pollInterval * k < timeoutSeconds * 1000 →
      (waitForOperation status operationId timeoutSeconds).result = .checkFailed e ∧
      (waitForOperation status operationId timeoutSeconds).checks = k + 1 := by
  intro status operationId timeoutSeconds k e hpre hk hdl
  simp only [pollInterval] at hdl
  rw [waitForOperation]
  refine waitGo_check_failure status operationId timeoutSeconds e k
    (timeoutSeconds * 1000 / pollInterval + 1) 0 ?_ ?_ ?_ ?_
  · intro i hi; simpa using hpre i hi
  · simpa using hk
  · omega
  · simp only [pollInterval]; omega

/-- Status checks: pending once, then a failing check. -/
def statusFailWitness : Nat → Except String Operation :=
  fun n => if n < 1 then .ok opPending else .error "boom"

/-- Witness for C8 with the second status check failing: the failure
propagates and exactly two checks are made. -/
theorem c8_witness :
    (waitForOperation statusFailWitness "op-x" 900).result = .checkFailed "boom" ∧
    (waitForOperation statusFailWitness "op-x" 900).checks = 2 :=
  c8_status_check_failure_propagates statusFailWitness "op-x" 900 1 "boom"
    (by intro i hi
        interval_cases i
        exact ⟨opPending, rfl, rfl⟩)
    rfl (by decide)

/-- A configuration with `maxAttempts = 0`. -/
def cfgZeroAttempts : RetryConfig := { maxAttempts := 0 }

/-- Witness for C10: no unexpected exit at `maxAttempts = 3`; the
unexpected-exit trace with zero invocations at `maxAttempts = 0`. -/
theorem c10_witness :
    ((retryWithBackoff opFailWitness cfgWitness).result ≠ .error .unexpectedExit) ∧
    retryWithBackoff opFailWitness cfgZeroAttempts = ⟨.error .unexpectedExit, 0, [], []⟩ :=
  ⟨c10_unexpected_exit_reachability.1 opFailWitness cfgWitness (by decide),
    c10_unexpected_exit_reachability.2 opFailWitness cfgZeroAttempts (by decide)⟩

end CdnInvalidator
